import Mathlib

/-!
Verification of the `memoize` library (function-result cache with optional
time-based expiration, pluggable storage, decorator adaptation and external
clearing), shallowly embedded from `src/distribution/index.js` and the
TypeScript source in `src/unnamed/part_000`.

Modelling conventions:
* JavaScript values appearing as arguments, keys, cached data and thrown
  values are modelled by the inductive `JsVal` (NaN and the infinities are
  outside the model; object values are modelled by identity via a numeric id).
* `Map` storage is an association list with `Map.get` / `Map.set` semantics
  (`assocGet` / `assocSet`; `set` overwrites an existing binding in place).
* `WeakMap`-based registries (`cacheStore`, `cacheTimerStore`) key functions by
  a numeric identity.
* The `maxAge` option is `Option Int`: `none` models the option being absent
  (`undefined`), `some n` models a finite number.
* A failure raised by a callable is modelled with `Except JsVal`.
-/

/-- A JavaScript value, as far as the cache engine observes it. -/
inductive JsVal where
  | undef
  | nullv
  | boolean (b : Bool)
  | num (n : Int)
  | str (s : String)
  | obj (id : Nat)
deriving Repr, DecidableEq

/-- JavaScript truthiness of a `JsVal` (objects are always truthy). -/
def jsTruthy : JsVal → Bool
  | JsVal.undef => false
  | JsVal.nullv => false
  | JsVal.boolean b => b
  | JsVal.num n => n != 0
  | JsVal.str s => s != ""
  | JsVal.obj _ => true

/-- Lookup in an association-list map, mirroring `Map.get` (first binding wins;
`none` models `undefined`). -/
def assocGet {α β : Type} [DecidableEq α] : List (α × β) → α → Option β
  | [], _ => none
  | (k, v) :: rest, a => if k = a then some v else assocGet rest a

/-- Update in an association-list map, mirroring `Map.set`: overwrite the
existing binding in place, otherwise append a new one. -/
def assocSet {α β : Type} [DecidableEq α] : List (α × β) → α → β → List (α × β)
  | [], a, b => [(a, b)]
  | (k, v) :: rest, a, b =>
      if k = a then (a, b) :: rest else (k, v) :: assocSet rest a b

/-- Removal from an association-list map, mirroring `Map.delete`. -/
def assocDelete {α β : Type} [DecidableEq α] : List (α × β) → α → List (α × β)
  | [], _ => []
  | (k, v) :: rest, a =>
      if k = a then rest else (k, v) :: assocDelete rest a

/-- A cache entry as stored by the engine: `{ data: result, maxAge: ... }`.
The `maxAge` field holds the absolute expiry instant `Date.now() + maxAge`,
or `none` for the `Number.POSITIVE_INFINITY` sentinel (never expires). -/
structure CacheEntry where
  data : JsVal
  maxAge : Option Int
deriving Repr, DecidableEq

/-- The contents of one storage instance. -/
abbrev CacheMap := List (JsVal × CacheEntry)

/-- Key derivation of the wrapped function:
`cacheKey ? cacheKey(arguments_) : arguments_[0]`
(`arguments_[0]` is `undefined` when the call has no arguments). -/
def deriveKey (cacheKey : Option (List JsVal → JsVal)) (arguments_ : List JsVal) : JsVal :=
  match cacheKey with
  | some ck => ck arguments_
  | none => arguments_.headD JsVal.undef

/-- Expiry instant stored with a fresh entry:
`maxAge ? Date.now() + maxAge : Number.POSITIVE_INFINITY`.
A `maxAge` of `0` or an absent `maxAge` is falsy, giving the infinite
sentinel (`none`); any other number gives `now + maxAge`. -/
def entryExpiry (maxAge : Option Int) (now : Int) : Option Int :=
  match maxAge with
  | some n => if n = 0 then none else some (now + n)
  | none => none

/-- Outcome of one invocation of the wrapped function: the returned or thrown
value, the storage contents afterwards, the eviction timer scheduled by this
call (key and delay) if any, and whether the original callable was invoked. -/
structure CallOutcome where
  result : Except JsVal JsVal
  cache : CacheMap
  newTimer : Option (JsVal × Int)
  invoked : Bool
deriving Repr

/-- One invocation of the function returned by `memoize` (the body of
`memoized` in the source): derive the key, return the entry data on a hit
(a present entry is an object, hence truthy; `undefined` is falsy), otherwise
invoke the original callable with the given receiver and arguments, propagate
a thrown failure unchanged without storing anything, and on success store
`{ data: result, maxAge: entryExpiry }` under the key and schedule an eviction
timer for `maxAge` milliseconds whenever `maxAge` is a number. -/
def memoizedCall (cacheKey : Option (List JsVal → JsVal)) (maxAge : Option Int)
    (function_ : JsVal → List JsVal → Except JsVal JsVal)
    (now : Int) (cache : CacheMap)
    (thisArg : JsVal) (arguments_ : List JsVal) : CallOutcome :=
  let key := deriveKey cacheKey arguments_
  match assocGet cache key with
  | some cacheItem => ⟨Except.ok cacheItem.data, cache, none, false⟩
  | none =>
      match function_ thisArg arguments_ with
      | Except.error e => ⟨Except.error e, cache, none, true⟩
      | Except.ok result =>
          let cache1 := assocSet cache key ⟨result, entryExpiry maxAge now⟩
          let newTimer : Option (JsVal × Int) :=
            match maxAge with
            | some n => some (key, n)
            | none => none
          ⟨Except.ok result, cache1, newTimer, true⟩

/-- The `setTimeout` ceiling used by the `maxAge` validation. -/
def maxSetIntervalValue : Int := 2147483647

/-- How a call to `memoize` itself resolves, before any wrapped call runs. -/
inductive MemoizeOutcome where
  | passthrough
  | errMaxAgeExceeds
  | errMaxAgeNegative
  | wrapped
deriving Repr, DecidableEq

/-- The prologue of `memoize`: return the original unchanged when
`maxAge === 0`; when `maxAge` is a number, throw a `TypeError` if it exceeds
`maxSetIntervalValue` or is negative; otherwise build the wrapper. -/
def memoizeCheck (maxAge : Option Int) : MemoizeOutcome :=
  if maxAge = some 0 then MemoizeOutcome.passthrough
  else
    match maxAge with
    | some n =>
        if n > maxSetIntervalValue then MemoizeOutcome.errMaxAgeExceeds
        else if n < 0 then MemoizeOutcome.errMaxAgeNegative
        else MemoizeOutcome.wrapped
    | none => MemoizeOutcome.wrapped

/-- The two `TypeError`s the `maxAge` validation in `memoize` can raise. -/
inductive JsErr where
  | maxAgeExceeds
  | maxAgeNegative
deriving Repr, DecidableEq

/-- A storage instance as seen by the registry: its contents and whether it
implements the optional `clear` method (the default `Map` does). -/
structure CacheObj where
  contents : CacheMap
  hasClear : Bool
deriving Repr, DecidableEq

/-- A pending eviction timer: its `setTimeout` handle, the storage instance
and key its callback will delete, and the configured delay. -/
structure TimerRec where
  tid : Nat
  cacheId : Nat
  key : JsVal
  delay : Int
deriving Repr, DecidableEq

/-- The process-wide state the module keeps around its wrappers:
`cacheStore` maps a wrapped-function identity to its storage instance,
`cacheTimerStore` maps a function identity to the set of timer handles
recorded under it, `caches` gives each storage instance its state,
`activeTimers` are the scheduled-and-not-yet-cancelled-or-fired timers, and
`nextId` is a fresh-identity supply for wrappers, storages and timers. -/
structure World where
  cacheStore : List (Nat × Nat)
  cacheTimerStore : List (Nat × List Nat)
  caches : List (Nat × CacheObj)
  activeTimers : List TimerRec
  nextId : Nat
deriving Repr, DecidableEq

/-- The configuration captured by one wrapper returned from `memoize`: its own
identity, the identity of the original callable, the storage it closed over,
and the `maxAge` / `cacheKey` options. -/
structure MemoWrapper where
  wrapId : Nat
  origId : Nat
  cacheId : Nat
  maxAge : Option Int
  cacheKey : Option (List JsVal → JsVal)

/-- Result of a call to `memoize` in the world model. -/
inductive MemoizeWorldResult where
  | original (origId : Nat) (w : World)
  | threw (e : JsErr) (w : World)
  | wrapper (wr : MemoWrapper) (w : World)

/-- The world after a `MemoizeWorldResult`. -/
def MemoizeWorldResult.world : MemoizeWorldResult → World
  | MemoizeWorldResult.original _ w => w
  | MemoizeWorldResult.threw _ w => w
  | MemoizeWorldResult.wrapper _ w => w

/-- `memoize(function_, {cacheKey, cache, maxAge})` in the world model:
`maxAge === 0` returns the original callable unchanged; an out-of-range
numeric `maxAge` throws before the wrapper is created and leaves the world
unchanged; otherwise the storage is the user-supplied instance (`cacheArg`)
or a fresh clearable `Map`, a fresh wrapper identity is allocated, and
`cacheStore` records the wrapper-to-storage association. -/
def memoizeWorld (w : World) (origId : Nat) (maxAge : Option Int)
    (cacheKey : Option (List JsVal → JsVal)) (cacheArg : Option Nat) :
    MemoizeWorldResult :=
  match memoizeCheck maxAge with
  | MemoizeOutcome.passthrough => MemoizeWorldResult.original origId w
  | MemoizeOutcome.errMaxAgeExceeds => MemoizeWorldResult.threw JsErr.maxAgeExceeds w
  | MemoizeOutcome.errMaxAgeNegative => MemoizeWorldResult.threw JsErr.maxAgeNegative w
  | MemoizeOutcome.wrapped =>
      let step : Nat × World :=
        match cacheArg with
        | some cid => (cid, w)
        | none =>
            (w.nextId,
              { w with
                caches := assocSet w.caches w.nextId ⟨[], true⟩,
                nextId := w.nextId + 1 })
      let cacheId := step.1
      let w1 := step.2
      let wrapId := w1.nextId
      MemoizeWorldResult.wrapper ⟨wrapId, origId, cacheId, maxAge, cacheKey⟩
        { w1 with
          nextId := w1.nextId + 1,
          cacheStore := assocSet w1.cacheStore wrapId cacheId }

/-- One invocation of a wrapper in the world model: run `memoizedCall` on the
wrapper's storage, write the storage back, and, when a timer was scheduled,
allocate its handle, add it to the active timers and record the handle in
`cacheTimerStore` under the identity of the original callable (the source
registers timers under `function_`, not under the wrapper). Returns the
call's result, the new world and whether the original was invoked. -/
def callWorld (w : World) (wr : MemoWrapper)
    (function_ : JsVal → List JsVal → Except JsVal JsVal)
    (now : Int) (thisArg : JsVal) (arguments_ : List JsVal) :
    Except JsVal JsVal × World × Bool :=
  let cobj := (assocGet w.caches wr.cacheId).getD ⟨[], true⟩
  let o := memoizedCall wr.cacheKey wr.maxAge function_ now cobj.contents thisArg arguments_
  let w1 := { w with caches := assocSet w.caches wr.cacheId ⟨o.cache, cobj.hasClear⟩ }
  match o.newTimer with
  | none => (o.result, w1, o.invoked)
  | some kd =>
      let tid := w1.nextId
      let tset := (assocGet w1.cacheTimerStore wr.origId).getD []
      (o.result,
        { w1 with
          nextId := tid + 1,
          activeTimers := w1.activeTimers ++ [⟨tid, wr.cacheId, kd.1, kd.2⟩],
          cacheTimerStore := assocSet w1.cacheTimerStore wr.origId (tset ++ [tid]) },
        o.invoked)

/-- How a call to `memoizeClear` resolves. -/
inductive ClearOutcome where
  | cleared
  | errNotMemoized
  | errNotClearable
deriving Repr, DecidableEq

/-- `memoizeClear(function_)`: look the given function identity up in
`cacheStore`; throw the "not memoized" `TypeError` when no association
exists and the "not clearable" `TypeError` when the storage has no `clear`
method, leaving the world unchanged in both cases; otherwise empty the
storage via `clear()` and cancel (`clearTimeout`) every timer handle recorded
in `cacheTimerStore` under that same identity. The recorded handle set itself
is not modified by the source. -/
def memoizeClearW (w : World) (fnId : Nat) : ClearOutcome × World :=
  match assocGet w.cacheStore fnId with
  | none => (ClearOutcome.errNotMemoized, w)
  | some cid =>
      let cobj := (assocGet w.caches cid).getD ⟨[], false⟩
      if cobj.hasClear then
        let tids := (assocGet w.cacheTimerStore fnId).getD []
        (ClearOutcome.cleared,
          { w with
            caches := assocSet w.caches cid ⟨[], cobj.hasClear⟩,
            activeTimers := w.activeTimers.filter (fun t => ! tids.contains t.tid) })
      else (ClearOutcome.errNotClearable, w)

/-- The option object handed to `memoize` or `memoizeDecorator`. A
user-supplied storage is referenced by identity (`cacheArg`); `none` means the
default fresh `Map` per `memoize` call. -/
structure MemoOptions where
  maxAge : Option Int
  cacheKey : Option (List JsVal → JsVal)
  cacheArg : Option Nat

/-- The member a property descriptor presents to the decorator: a method
(`descriptor.value` is a function), a getter (`descriptor.get` is a
function), or a non-function value. -/
inductive DescMember where
  | methodFn
  | getterFn
  | nonFunction (v : JsVal)
deriving Repr, DecidableEq

/-- Which replacement the decorator installed on the descriptor. -/
inductive DecoratedKind where
  | methodBranch
  | getterBranch
deriving Repr, DecidableEq

/-- Applying the decorator returned by `memoizeDecorator(options)` to a
descriptor: a getter gets the compute-once replacement, a method gets the
per-receiver memoizing replacement, and a non-function member throws
`TypeError('The decorated value must be a function or a getter')`. The
options are only captured for later use; nothing validates them here. -/
def memoizeDecoratorApply (_options : MemoOptions) (member : DescMember) :
    Except Unit DecoratedKind :=
  match member with
  | DescMember.methodFn => Except.ok DecoratedKind.methodBranch
  | DescMember.getterFn => Except.ok DecoratedKind.getterBranch
  | DescMember.nonFunction _ => Except.error ()

/-- The hidden per-receiver slot of a decorated method (`this[memoizedKey]`):
either the pass-through original (when `memoize` returned it unchanged for
`maxAge: 0`) or a wrapper over a storage instance. -/
inductive WrapperSlot where
  | passthrough
  | cached (cacheId : Nat)
deriving Repr, DecidableEq

/-- State of one decorated method across all receivers: the per-receiver
hidden slots, the storage instances behind the per-receiver wrappers,
the timers those wrappers scheduled, a log of invocations of the underlying
method body (receiver and arguments, in order), and a fresh-id supply for
storage instances. -/
structure MethodState where
  slots : List (Nat × WrapperSlot)
  caches : List (Nat × CacheMap)
  timers : List (JsVal × Int)
  callLog : List (Nat × List JsVal)
  nextId : Nat
deriving Repr

/-- Running the slot a receiver holds: a pass-through slot invokes the bound
original directly; a cached slot runs `memoizedCall` on the slot's storage
with the original bound to the receiver, writes the storage back, records a
scheduled timer, and logs the body invocation when one happened. The method
body `m` receives the receiver, the arguments and the index of this body
invocation (so that an impure body can be modelled). -/
def runMethodSlot (options : MemoOptions) (m : Nat → List JsVal → Nat → JsVal)
    (st : MethodState) (now : Int) (receiver : Nat) (arguments_ : List JsVal) :
    WrapperSlot → JsVal × MethodState × Bool
  | WrapperSlot.passthrough =>
      (m receiver arguments_ st.callLog.length,
        { st with callLog := st.callLog ++ [(receiver, arguments_)] }, true)
  | WrapperSlot.cached cid =>
      let contents := (assocGet st.caches cid).getD []
      let o := memoizedCall options.cacheKey options.maxAge
        (fun _ as => Except.ok (m receiver as st.callLog.length))
        now contents (JsVal.obj receiver) arguments_
      let value := match o.result with
        | Except.ok v => v
        | Except.error _ => JsVal.undef
      (value,
        { st with
          caches := assocSet st.caches cid o.cache,
          timers := st.timers ++ o.newTimer.toList,
          callLog :=
            if o.invoked then st.callLog ++ [(receiver, arguments_)] else st.callLog },
        o.invoked)

/-- One invocation of a decorated method on a receiver: reuse the receiver's
hidden slot when it exists; otherwise run `memoize(originalMethod.bind(this),
options)` now — this is where an out-of-range `maxAge` throws — store the
resulting slot (the pass-through original for `maxAge: 0`, else a wrapper
over the user-supplied storage or a fresh one), and call through the slot. -/
def methodCall (options : MemoOptions) (m : Nat → List JsVal → Nat → JsVal)
    (st : MethodState) (now : Int) (receiver : Nat) (arguments_ : List JsVal) :
    Except JsErr (JsVal × MethodState × Bool) :=
  match assocGet st.slots receiver with
  | some slot => Except.ok (runMethodSlot options m st now receiver arguments_ slot)
  | none =>
      match memoizeCheck options.maxAge with
      | MemoizeOutcome.errMaxAgeExceeds => Except.error JsErr.maxAgeExceeds
      | MemoizeOutcome.errMaxAgeNegative => Except.error JsErr.maxAgeNegative
      | MemoizeOutcome.passthrough =>
          let st1 := { st with slots := assocSet st.slots receiver WrapperSlot.passthrough }
          Except.ok (runMethodSlot options m st1 now receiver arguments_ WrapperSlot.passthrough)
      | MemoizeOutcome.wrapped =>
          let step : Nat × MethodState :=
            match options.cacheArg with
            | some cid => (cid, st)
            | none =>
                (st.nextId,
                  { st with
                    caches := assocSet st.caches st.nextId [],
                    nextId := st.nextId + 1 })
          let cid := step.1
          let st1 := { step.2 with
            slots := assocSet step.2.slots receiver (WrapperSlot.cached cid) }
          Except.ok (runMethodSlot options m st1 now receiver arguments_ (WrapperSlot.cached cid))

/-- State of one decorated getter across all receivers: the per-receiver
frozen values and the log of underlying getter-body invocations (receiver
ids, in order). -/
structure GetterState where
  slots : List (Nat × JsVal)
  callLog : List Nat
deriving Repr, DecidableEq

/-- One read of a decorated getter on a receiver: if the receiver already has
a frozen value, return it; otherwise invoke the underlying getter body once,
freeze its value for this receiver and return it. The options captured by the
decorator are in scope but unused — the getter branch of the source never
reads them. The body `g` receives the receiver and the index of this body
invocation (so that an impure body can be modelled). -/
def getterRead (_options : MemoOptions) (g : Nat → Nat → JsVal)
    (st : GetterState) (receiver : Nat) : JsVal × GetterState :=
  match assocGet st.slots receiver with
  | some v => (v, st)
  | none =>
      let v := g receiver st.callLog.length
      (v, ⟨assocSet st.slots receiver v, st.callLog ++ [receiver]⟩)

/-- A sequence of decorated-getter reads, returning the final state. -/
def getterReads (options : MemoOptions) (g : Nat → Nat → JsVal)
    (st : GetterState) (receivers : List Nat) : GetterState :=
  receivers.foldl (fun s r => (getterRead options g s r).2) st

/-! ### Association-list lemmas -/

theorem assocGet_assocSet_self {α β : Type} [DecidableEq α]
    (m : List (α × β)) (k : α) (v : β) :
    assocGet (assocSet m k v) k = some v := by
  induction m with
  | nil => simp [assocGet, assocSet]
  | cons kv rest ih =>
      obtain ⟨k1, v1⟩ := kv
      by_cases h : k1 = k
      · simp [assocGet, assocSet, h]
      · simp [assocGet, assocSet, h, ih]

theorem assocGet_assocSet_ne {α β : Type} [DecidableEq α]
    (m : List (α × β)) (k k2 : α) (v : β) (h : k2 ≠ k) :
    assocGet (assocSet m k v) k2 = assocGet m k2 := by
  have hs : k ≠ k2 := Ne.symm h
  induction m with
  | nil => simp [assocGet, assocSet, hs]
  | cons kv rest ih =>
      obtain ⟨k1, v1⟩ := kv
      by_cases h1 : k1 = k
      · subst h1
        simp [assocGet, assocSet, hs]
      · simp [assocGet, assocSet, h1, ih]

/-! ### Sample callables used by the witnesses -/

/-- A pure callable: successor on a numeric first argument. -/
def sampleFn : JsVal → List JsVal → Except JsVal JsVal :=
  fun _ arguments_ =>
    match arguments_.headD JsVal.undef with
    | JsVal.num n => Except.ok (JsVal.num (n + 1))
    | v => Except.ok v

/-- A callable that always throws. -/
def throwingFn : JsVal → List JsVal → Except JsVal JsVal :=
  fun _ _ => Except.error (JsVal.str "boom")

/-- A callable that always returns the falsy value `0`. -/
def zeroFn : JsVal → List JsVal → Except JsVal JsVal :=
  fun _ _ => Except.ok (JsVal.num 0)

/-! ### C1: lookup-or-compute-and-store semantics of the wrapped function -/

/-- C1: on every call of the wrapped function the key is `cacheKey(arguments)`
if configured, else the first positional argument; when the storage holds an
entry for that key its stored data is returned and the original is not
invoked (and nothing changes); otherwise the original is invoked with the
given receiver and arguments, its result is returned and stored under the
key, so a second call whose input derives the same key returns the identical
cached value without invoking the original again. -/
theorem memoize_call_semantics (ck : Option (List JsVal → JsVal)) (maxAge : Option Int)
    (f : JsVal → List JsVal → Except JsVal JsVal) (now : Int) (cache : CacheMap)
    (thisArg : JsVal) (args : List JsVal) :
    (∀ item, assocGet cache (deriveKey ck args) = some item →
        memoizedCall ck maxAge f now cache thisArg args =
          ⟨Except.ok item.data, cache, none, false⟩) ∧
    (assocGet cache (deriveKey ck args) = none →
        (memoizedCall ck maxAge f now cache thisArg args).result = f thisArg args ∧
        (memoizedCall ck maxAge f now cache thisArg args).invoked = true ∧
        ∀ v, f thisArg args = Except.ok v →
          (memoizedCall ck maxAge f now cache thisArg args).cache =
            assocSet cache (deriveKey ck args) ⟨v, entryExpiry maxAge now⟩ ∧
          ∀ args2 now2, deriveKey ck args2 = deriveKey ck args →
            memoizedCall ck maxAge f now2
                (memoizedCall ck maxAge f now cache thisArg args).cache thisArg args2 =
              ⟨Except.ok v,
                (memoizedCall ck maxAge f now cache thisArg args).cache,
                none, false⟩) := by
  constructor
  · intro item h
    simp [memoizedCall, h]
  · intro h
    refine ⟨?_, ?_, ?_⟩
    · cases hf : f thisArg args <;> simp [memoizedCall, h, hf]
    · cases hf : f thisArg args <;> simp [memoizedCall, h, hf]
    · intro v hf
      have hcache : (memoizedCall ck maxAge f now cache thisArg args).cache =
          assocSet cache (deriveKey ck args) ⟨v, entryExpiry maxAge now⟩ := by
        simp [memoizedCall, h, hf]
      refine ⟨hcache, ?_⟩
      intro args2 now2 hk
      rw [hcache]
      have hget : assocGet
          (assocSet cache (deriveKey ck args) ⟨v, entryExpiry maxAge now⟩)
          (deriveKey ck args2) = some ⟨v, entryExpiry maxAge now⟩ := by
        rw [hk]
        exact assocGet_assocSet_self cache (deriveKey ck args) ⟨v, entryExpiry maxAge now⟩
      simp [memoizedCall, hget]

/-- Witness for C1 at a concrete input: a first call computes `4 = 3 + 1`,
and a repeat call with the same argument is a pure cache hit. -/
theorem memoize_call_semantics_witness :
    (memoizedCall none none sampleFn 0 [] JsVal.undef [JsVal.num 3]).result =
      Except.ok (JsVal.num 4) ∧
    (memoizedCall none none sampleFn 0 [] JsVal.undef [JsVal.num 3]).invoked = true ∧
    memoizedCall none none sampleFn 9
        (memoizedCall none none sampleFn 0 [] JsVal.undef [JsVal.num 3]).cache
        JsVal.undef [JsVal.num 3] =
      ⟨Except.ok (JsVal.num 4),
        (memoizedCall none none sampleFn 0 [] JsVal.undef [JsVal.num 3]).cache,
        none, false⟩ := by
  have h := (memoize_call_semantics none none sampleFn 0 [] JsVal.undef [JsVal.num 3]).2 rfl
  have h2 := h.2.2 (JsVal.num 4) rfl
  exact ⟨h.1.trans rfl, h.2.1, h2.2 [JsVal.num 3] 9 rfl⟩

/-! ### C3: maxAge of zero is a pass-through -/

/-- C3: `memoize(f, {maxAge: 0})` hits the pass-through branch and returns
the original callable itself, unchanged and with no registry side effect, so
no caching ever occurs and every call invokes the original. -/
theorem memoize_maxAge_zero_identity (w : World) (origId : Nat)
    (ck : Option (List JsVal → JsVal)) (cacheArg : Option Nat) :
    memoizeCheck (some 0) = MemoizeOutcome.passthrough ∧
    memoizeWorld w origId (some 0) ck cacheArg = MemoizeWorldResult.original origId w := by
  constructor
  · simp [memoizeCheck]
  · simp [memoizeWorld, memoizeCheck]

/-! ### C5: failures of the original propagate and are never cached -/

/-- C5: when the derived key misses and the original callable throws, the
failure propagates unchanged, the storage is left exactly as it was and no
timer is scheduled; a subsequent call whose input derives the same key
re-invokes the original instead of replaying the error. -/
theorem memoize_error_propagation (ck : Option (List JsVal → JsVal)) (maxAge : Option Int)
    (f : JsVal → List JsVal → Except JsVal JsVal) (now : Int) (cache : CacheMap)
    (thisArg : JsVal) (args : List JsVal) (e : JsVal)
    (hmiss : assocGet cache (deriveKey ck args) = none)
    (hf : f thisArg args = Except.error e) :
    memoizedCall ck maxAge f now cache thisArg args =
      ⟨Except.error e, cache, none, true⟩ ∧
    ∀ now2 args2, deriveKey ck args2 = deriveKey ck args →
      (memoizedCall ck maxAge f now2 cache thisArg args2).invoked = true ∧
      (memoizedCall ck maxAge f now2 cache thisArg args2).result = f thisArg args2 := by
  constructor
  · simp [memoizedCall, hmiss, hf]
  · intro now2 args2 hk
    have hmiss2 : assocGet cache (deriveKey ck args2) = none := by
      rw [hk]; exact hmiss
    cases hf2 : f thisArg args2 <;> simp [memoizedCall, hmiss2, hf2]

/-- Witness for C5 at a concrete input: the thrown value propagates, the
storage stays empty, and a repeat call invokes the original again. -/
theorem memoize_error_propagation_witness :
    memoizedCall none none throwingFn 0 [] JsVal.undef [JsVal.num 1] =
      ⟨Except.error (JsVal.str "boom"), [], none, true⟩ ∧
    (memoizedCall none none throwingFn 5 [] JsVal.undef [JsVal.num 1]).invoked = true := by
  have h := memoize_error_propagation none none throwingFn 0 [] JsVal.undef
    [JsVal.num 1] (JsVal.str "boom") rfl rfl
  exact ⟨h.1, (h.2 5 [JsVal.num 1] rfl).1⟩

/-! ### C6: the error cases of memoizeClear -/

/-- C6: `memoizeClear` throws the "not memoized" `TypeError` when the given
function identity has no storage association and the "not clearable"
`TypeError` when the associated storage does not implement `clear`; in both
cases the world — storage contents and timers — is left unchanged. -/
theorem memoizeClear_error_cases (w : World) (fnId : Nat) :
    (assocGet w.cacheStore fnId = none →
      memoizeClearW w fnId = (ClearOutcome.errNotMemoized, w)) ∧
    ∀ cid, assocGet w.cacheStore fnId = some cid →
      ((assocGet w.caches cid).getD ⟨[], false⟩).hasClear = false →
      memoizeClearW w fnId = (ClearOutcome.errNotClearable, w) := by
  constructor
  · intro h
    simp [memoizeClearW, h]
  · intro cid h hc
    simp [memoizeClearW, h, hc]

/-- A world with one wrapper (identity 1) whose storage (identity 0) does not
implement `clear`, for the C6 witness. -/
def c6World : World := ⟨[(1, 0)], [], [(0, ⟨[], false⟩)], [], 2⟩

/-- Witness for C6 at a concrete input: identity 5 was never memoized,
identity 1 has a storage without `clear`. -/
theorem memoizeClear_error_cases_witness :
    memoizeClearW c6World 5 = (ClearOutcome.errNotMemoized, c6World) ∧
    memoizeClearW c6World 1 = (ClearOutcome.errNotClearable, c6World) :=
  ⟨(memoizeClear_error_cases c6World 5).1 rfl,
   (memoizeClear_error_cases c6World 1).2 0 rfl rfl⟩

/-! ### C7: no freshness check on read -/

/-- C7: a present entry is returned as a hit with no freshness check at read
time — even when its expiry instant is already strictly in the past, the
stored data is returned, the original is not invoked and nothing changes. -/
theorem memoize_stale_entry_hit (ck : Option (List JsVal → JsVal)) (maxAge : Option Int)
    (f : JsVal → List JsVal → Except JsVal JsVal) (now : Int) (cache : CacheMap)
    (thisArg : JsVal) (args : List JsVal) (item : CacheEntry) (t : Int)
    (hget : assocGet cache (deriveKey ck args) = some item)
    (hexp : item.maxAge = some t) (hpast : t < now) :
    memoizedCall ck maxAge f now cache thisArg args =
      ⟨Except.ok item.data, cache, none, false⟩ := by
  simp [memoizedCall, hget]

/-- Witness for C7 at a concrete input: an entry that expired at instant 10
is still a valid hit at instant 99. -/
theorem memoize_stale_entry_hit_witness :
    memoizedCall none none sampleFn 99
        [(JsVal.num 1, ⟨JsVal.num 9, some 10⟩)] JsVal.undef [JsVal.num 1] =
      ⟨Except.ok (JsVal.num 9), [(JsVal.num 1, ⟨JsVal.num 9, some 10⟩)], none, false⟩ ∧
    (10 : Int) < 99 :=
  ⟨memoize_stale_entry_hit none none sampleFn 99
      [(JsVal.num 1, ⟨JsVal.num 9, some 10⟩)] JsVal.undef [JsVal.num 1]
      ⟨JsVal.num 9, some 10⟩ 10 rfl rfl (by decide),
   by decide⟩

/-! ### C10: falsy results are cached and hit -/

/-- C10: hit detection tests the presence of the entry record (a JavaScript
object, hence truthy), not the truthiness of the stored result — so a falsy
result is stored like any other, and a repeat call with the same derived key
returns it from the cache without re-invoking the original. -/
theorem memoize_falsy_value_hit (ck : Option (List JsVal → JsVal)) (maxAge : Option Int)
    (f : JsVal → List JsVal → Except JsVal JsVal) (now now2 : Int) (cache : CacheMap)
    (thisArg : JsVal) (args : List JsVal) (v : JsVal)
    (hfalsy : jsTruthy v = false)
    (hmiss : assocGet cache (deriveKey ck args) = none)
    (hf : f thisArg args = Except.ok v) :
    (memoizedCall ck maxAge f now cache thisArg args).result = Except.ok v ∧
    memoizedCall ck maxAge f now2
        (memoizedCall ck maxAge f now cache thisArg args).cache thisArg args =
      ⟨Except.ok v, (memoizedCall ck maxAge f now cache thisArg args).cache,
        none, false⟩ := by
  have hcache : (memoizedCall ck maxAge f now cache thisArg args).cache =
      assocSet cache (deriveKey ck args) ⟨v, entryExpiry maxAge now⟩ := by
    simp [memoizedCall, hmiss, hf]
  refine ⟨by simp [memoizedCall, hmiss, hf], ?_⟩
  rw [hcache]
  have hget := assocGet_assocSet_self cache (deriveKey ck args)
    (⟨v, entryExpiry maxAge now⟩ : CacheEntry)
  simp [memoizedCall, hget]

/-- Witness for C10 at a concrete input: the falsy result `0` is served from
the cache on the second call, with the original not invoked. -/
theorem memoize_falsy_value_hit_witness :
    jsTruthy (JsVal.num 0) = false ∧
    (memoizedCall none none zeroFn 0 [] JsVal.undef [JsVal.num 1]).result =
      Except.ok (JsVal.num 0) ∧
    memoizedCall none none zeroFn 7
        (memoizedCall none none zeroFn 0 [] JsVal.undef [JsVal.num 1]).cache
        JsVal.undef [JsVal.num 1] =
      ⟨Except.ok (JsVal.num 0),
        (memoizedCall none none zeroFn 0 [] JsVal.undef [JsVal.num 1]).cache,
        none, false⟩ := by
  have h := memoize_falsy_value_hit none none zeroFn 0 7 [] JsVal.undef
    [JsVal.num 1] (JsVal.num 0) (by decide) rfl rfl
  exact ⟨by decide, h.1, h.2⟩

/-! ### C4: range validation of maxAge -/

theorem memoizeCheck_gt (n : Int) (h : maxSetIntervalValue < n) :
    memoizeCheck (some n) = MemoizeOutcome.errMaxAgeExceeds := by
  have hM : (0 : Int) < maxSetIntervalValue := by decide
  have h0 : n ≠ 0 := by omega
  simp [memoizeCheck, h0, h]

theorem memoizeCheck_neg (n : Int) (h : n < 0) :
    memoizeCheck (some n) = MemoizeOutcome.errMaxAgeNegative := by
  have hM : (0 : Int) < maxSetIntervalValue := by decide
  have h0 : n ≠ 0 := by omega
  have hng : ¬ maxSetIntervalValue < n := by omega
  simp [memoizeCheck, h0, hng, h]

/-- An empty decorated-method state, for the C4 theorems. -/
def c4EmptyMethodState : MethodState := ⟨[], [], [], [], 0⟩

/-- A method body returning its receiver as a number, for the C4 theorems. -/
def c4Body : Nat → List JsVal → Nat → JsVal := fun r _ _ => JsVal.num r

/-- C4 counterexample: the claim says `memoizeDecorator` with an out-of-range
`maxAge` raises a configuration error synchronously at call time, before any
wrapped function is created. In the source no validation happens when the
decorator is created or applied: applying `memoizeDecorator({maxAge: -1})`
(or `2_147_483_648`) to a method succeeds, the error only surfaces at the
first invocation of the decorated method on a receiver, and a decorated
getter never validates the options at all. -/
theorem memoizeDecorator_deferred_validation_cx :
    memoizeDecoratorApply ⟨some (-1), none, none⟩ DescMember.methodFn =
      Except.ok DecoratedKind.methodBranch ∧
    memoizeDecoratorApply ⟨some 2147483648, none, none⟩ DescMember.methodFn =
      Except.ok DecoratedKind.methodBranch ∧
    memoizeDecoratorApply ⟨some (-1), none, none⟩ DescMember.getterFn =
      Except.ok DecoratedKind.getterBranch ∧
    methodCall ⟨some (-1), none, none⟩ c4Body c4EmptyMethodState 0 1 [] =
      Except.error JsErr.maxAgeNegative ∧
    methodCall ⟨some 2147483648, none, none⟩ c4Body c4EmptyMethodState 0 1 [] =
      Except.error JsErr.maxAgeExceeds ∧
    getterRead ⟨some (-1), none, none⟩ (fun r _ => JsVal.num r) ⟨[], []⟩ 1 =
      (JsVal.num 1, ⟨[(1, JsVal.num 1)], [1]⟩) :=
  ⟨rfl, rfl, rfl, rfl, rfl, rfl⟩

/-- C4 amended: for a negative `maxAge` or one exceeding `2_147_483_647`,
`memoize` itself raises the configuration error synchronously before the
wrapper is created, with no side effect; `memoizeDecorator` accepts the same
options without validation — applying the decorator to a method succeeds, and
the configuration error is raised only at the first invocation of the
decorated method on a receiver, when `memoize` finally runs. -/
theorem memoize_maxAge_range_validation (w : World) (origId : Nat)
    (ck : Option (List JsVal → JsVal)) (cacheArg : Option Nat)
    (opts : MemoOptions) (m : Nat → List JsVal → Nat → JsVal)
    (st : MethodState) (now : Int) (r : Nat) (args : List JsVal) (n : Int) :
    (maxSetIntervalValue < n →
      memoizeWorld w origId (some n) ck cacheArg =
        MemoizeWorldResult.threw JsErr.maxAgeExceeds w) ∧
    (n < 0 →
      memoizeWorld w origId (some n) ck cacheArg =
        MemoizeWorldResult.threw JsErr.maxAgeNegative w) ∧
    (memoizeDecoratorApply opts DescMember.methodFn =
      Except.ok DecoratedKind.methodBranch) ∧
    (opts.maxAge = some n → assocGet st.slots r = none →
      (n < 0 →
        methodCall opts m st now r args = Except.error JsErr.maxAgeNegative) ∧
      (maxSetIntervalValue < n →
        methodCall opts m st now r args = Except.error JsErr.maxAgeExceeds)) := by
  refine ⟨?_, ?_, rfl, ?_⟩
  · intro h
    simp [memoizeWorld, memoizeCheck_gt n h]
  · intro h
    simp [memoizeWorld, memoizeCheck_neg n h]
  · intro hma hslot
    constructor
    · intro h
      simp [methodCall, hslot, hma, memoizeCheck_neg n h]
    · intro h
      simp [methodCall, hslot, hma, memoizeCheck_gt n h]

/-- Witness for the amended C4 at a concrete input: `maxAge = -1` throws at
`memoize` time with the world untouched, and throws at the first invocation
of a method decorated with the same options. -/
theorem memoize_maxAge_range_validation_witness :
    memoizeWorld ⟨[], [], [], [], 0⟩ 0 (some (-1)) none none =
      MemoizeWorldResult.threw JsErr.maxAgeNegative ⟨[], [], [], [], 0⟩ ∧
    methodCall ⟨some (-1), none, none⟩ c4Body c4EmptyMethodState 0 1 [] =
      Except.error JsErr.maxAgeNegative := by
  have h := memoize_maxAge_range_validation ⟨[], [], [], [], 0⟩ 0 none none
    ⟨some (-1), none, none⟩ c4Body c4EmptyMethodState 0 1 [] (-1)
  exact ⟨h.2.1 (by decide), (h.2.2.2 rfl rfl).1 (by decide)⟩

/-! ### C2: memoizeClear empties the storage but cancels no eviction timer -/

/-- The initial empty world for the C2 scenario. -/
def c2World0 : World := ⟨[], [], [], [], 0⟩

/-- The wrapper produced by memoizing callable 100 with `maxAge: 1000` in
`c2World0`: wrapper identity 1 over fresh storage 0. -/
def c2Wrapper : MemoWrapper := ⟨1, 100, 0, some 1000, none⟩

/-- The original callable of the C2 scenario. -/
def c2F : JsVal → List JsVal → Except JsVal JsVal :=
  fun _ _ => Except.ok (JsVal.num 42)

/-- The world right after `memoize` in the C2 scenario. -/
def c2World1 : World := ⟨[(1, 0)], [], [(0, ⟨[], true⟩)], [], 2⟩

/-- The world after one wrapped call at instant 0 in the C2 scenario: the
result is cached and an eviction timer (handle 2) is pending, recorded in
`cacheTimerStore` under the original callable identity 100 — not under the
wrapper identity 1 that `cacheStore` is keyed by. -/
def c2World2 : World :=
  ⟨[(1, 0)], [(100, [2])],
    [(0, ⟨[(JsVal.num 5, ⟨JsVal.num 42, some 1000⟩)], true⟩)],
    [⟨2, 0, JsVal.num 5, 1000⟩], 3⟩

/-- C2 counterexample: memoize callable 100 with a finite `maxAge` and a
clearable storage, make one call (which schedules eviction timer 2), then
call `memoizeClear` on the wrapper identity 1 — the only identity holding the
storage association. The clear succeeds and empties the storage, but the
pending eviction timer for that same storage survives untouched, because the
source records timers under the original callable identity 100 while looking
them up under the identity passed to `memoizeClear`: the claim that every
pending eviction timer is cancelled is false at this input. -/
theorem memoizeClear_timer_survives_cx :
    memoizeWorld c2World0 100 (some 1000) none none =
      MemoizeWorldResult.wrapper c2Wrapper c2World1 ∧
    callWorld c2World1 c2Wrapper c2F 0 JsVal.undef [JsVal.num 5] =
      (Except.ok (JsVal.num 42), c2World2, true) ∧
    (memoizeClearW c2World2 1).1 = ClearOutcome.cleared ∧
    assocGet (memoizeClearW c2World2 1).2.caches 0 = some ⟨[], true⟩ ∧
    (memoizeClearW c2World2 1).2.activeTimers = [⟨2, 0, JsVal.num 5, 1000⟩] :=
  ⟨rfl, rfl, rfl, rfl, rfl⟩

theorem filter_contains_nil (l : List TimerRec) :
    (l.filter fun t => ! ([] : List Nat).contains t.tid) = l := by
  induction l with
  | nil => rfl
  | cons a l ih => simp [List.filter, ih]

/-- C2 amended: `memoizeClear` on the wrapped function empties the storage by
invoking `clear()` and cancels exactly the timers recorded in the timer store
under the identity it is given — but eviction timers are recorded under the
original callable identity, so for the wrapped identity (the one holding the
storage association) none are recorded and the pending eviction timers all
survive. A subsequent call still re-invokes the original even within the
`maxAge` window, because the storage was emptied. -/
theorem memoizeClear_clears_storage (w : World) (wr : MemoWrapper)
    (f : JsVal → List JsVal → Except JsVal JsVal) (now : Int)
    (thisArg : JsVal) (args : List JsVal)
    (hstore : assocGet w.cacheStore wr.wrapId = some wr.cacheId)
    (hclear : ((assocGet w.caches wr.cacheId).getD ⟨[], false⟩).hasClear = true)
    (htimers : assocGet w.cacheTimerStore wr.wrapId = none) :
    (memoizeClearW w wr.wrapId).1 = ClearOutcome.cleared ∧
    assocGet (memoizeClearW w wr.wrapId).2.caches wr.cacheId = some ⟨[], true⟩ ∧
    (memoizeClearW w wr.wrapId).2.activeTimers = w.activeTimers ∧
    (callWorld (memoizeClearW w wr.wrapId).2 wr f now thisArg args).2.2 = true := by
  have hres : memoizeClearW w wr.wrapId =
      (ClearOutcome.cleared,
        { w with caches := assocSet w.caches wr.cacheId ⟨[], true⟩ }) := by
    simp [memoizeClearW, hstore, hclear, htimers, filter_contains_nil]
  have hcobj : assocGet (assocSet w.caches wr.cacheId ⟨[], true⟩) wr.cacheId =
      some ⟨[], true⟩ :=
    assocGet_assocSet_self w.caches wr.cacheId ⟨[], true⟩
  refine ⟨by rw [hres], ?_, by rw [hres], ?_⟩
  · rw [hres]
    exact hcobj
  · rw [hres]
    cases hf : f thisArg args <;> cases hma : wr.maxAge <;>
      simp [callWorld, memoizedCall, hcobj, assocGet, hf, hma]

/-- Witness for the amended C2 at the concrete scenario worlds: clearing via
the wrapper identity empties the storage, leaves the pending timers exactly
as they were, and the next call re-invokes the original. -/
theorem memoizeClear_clears_storage_witness :
    (memoizeClearW c2World2 1).1 = ClearOutcome.cleared ∧
    assocGet (memoizeClearW c2World2 1).2.caches 0 = some ⟨[], true⟩ ∧
    (memoizeClearW c2World2 1).2.activeTimers = c2World2.activeTimers ∧
    (callWorld (memoizeClearW c2World2 1).2 c2Wrapper c2F 7 JsVal.undef
      [JsVal.num 5]).2.2 = true := by
  have h := memoizeClear_clears_storage c2World2 c2Wrapper c2F 7 JsVal.undef
    [JsVal.num 5] rfl rfl rfl
  exact h

/-! ### C8: decorated getters compute at most once per receiver -/

theorem getterRead_preserves_slot (opts : MemoOptions) (g : Nat → Nat → JsVal)
    (st : GetterState) (r r2 : Nat) (v : JsVal)
    (h : assocGet st.slots r = some v) :
    assocGet (getterRead opts g st r2).2.slots r = some v := by
  cases h2 : assocGet st.slots r2 with
  | some v2 => simp [getterRead, h2, h]
  | none =>
      have hne : r ≠ r2 := by
        intro he
        rw [he, h2] at h
        cases h
      simp [getterRead, h2,
        assocGet_assocSet_ne st.slots r2 r (g r2 st.callLog.length) hne, h]

theorem getterReads_preserves_slot (opts : MemoOptions) (g : Nat → Nat → JsVal)
    (rs : List Nat) (st : GetterState) (r : Nat) (v : JsVal)
    (h : assocGet st.slots r = some v) :
    assocGet (getterReads opts g st rs).slots r = some v := by
  induction rs generalizing st with
  | nil => simpa [getterReads] using h
  | cons r2 rs ih =>
      exact ih (getterRead opts g st r2).2
        (getterRead_preserves_slot opts g st r r2 v h)

/-- Invariant of a decorated getter: a receiver appears in the body-invocation
log at most once, and only if its value slot is filled. -/
def getterUniq (st : GetterState) : Prop :=
  ∀ r, st.callLog.count r ≤ if (assocGet st.slots r).isSome then 1 else 0

theorem getterUniq_empty : getterUniq ⟨[], []⟩ := by
  intro r
  simp [assocGet]

theorem getterRead_uniq (opts : MemoOptions) (g : Nat → Nat → JsVal)
    (st : GetterState) (r0 : Nat) (h : getterUniq st) :
    getterUniq (getterRead opts g st r0).2 := by
  intro r
  cases h2 : assocGet st.slots r0 with
  | some v => simpa [getterRead, h2] using h r
  | none =>
      by_cases he : r = r0
      · subst he
        have hc0 : st.callLog.count r = 0 := by
          have hc := h r
          rw [h2] at hc
          simpa using hc
        simp [getterRead, h2, assocGet_assocSet_self, List.count_append,
          List.count_cons, List.count_nil, hc0]
      · have hsl := assocGet_assocSet_ne st.slots r0 r (g r0 st.callLog.length) he
        have hcnt : ([r0] : List Nat).count r = 0 := by
          simp [List.count_cons, List.count_nil, he]
        have hc := h r
        simpa [getterRead, h2, hsl, List.count_append, hcnt] using hc

theorem getterReads_uniq (opts : MemoOptions) (g : Nat → Nat → JsVal)
    (rs : List Nat) (st : GetterState) (h : getterUniq st) :
    getterUniq (getterReads opts g st rs) := by
  induction rs generalizing st with
  | nil => simpa [getterReads] using h
  | cons r2 rs ih =>
      exact ih (getterRead opts g st r2).2 (getterRead_uniq opts g st r2 h)

/-- C8: for a decorated getter the underlying body runs at most once per
receiver over any read sequence from a fresh class; once a receiver holds a
frozen value, every later read — after arbitrary interleaved reads on other
receivers — returns exactly that value; two distinct receivers each get their
own independently computed value (separate body invocations 0 and 1); and the
`maxAge`/`cacheKey`/`cache` configuration has no effect on any read. -/
theorem memoizeDecorator_getter_once (opts opts2 : MemoOptions)
    (g : Nat → Nat → JsVal) (st : GetterState) (rs : List Nat)
    (r a b : Nat) (v : JsVal)
    (hsome : assocGet st.slots r = some v) (hab : a ≠ b) :
    ((getterReads opts g ⟨[], []⟩ rs).callLog.count r ≤ 1) ∧
    ((getterRead opts g (getterReads opts g st rs) r).1 = v) ∧
    ((getterRead opts g ⟨[], []⟩ a).1 = g a 0 ∧
      (getterRead opts2 g (getterRead opts g ⟨[], []⟩ a).2 b).1 = g b 1 ∧
      (getterRead opts2 g (getterRead opts g ⟨[], []⟩ a).2 b).2.callLog = [a, b]) ∧
    getterRead opts g st r = getterRead opts2 g st r := by
  refine ⟨?_, ?_, ?_, rfl⟩
  · have h1 := getterReads_uniq opts g rs ⟨[], []⟩ getterUniq_empty r
    exact h1.trans (by split <;> omega)
  · have hp := getterReads_preserves_slot opts g rs st r v hsome
    simp [getterRead, hp]
  · have hga : getterRead opts g ⟨[], []⟩ a =
        (g a 0, ⟨[(a, g a 0)], [a]⟩) := by
      simp [getterRead, assocGet, assocSet]
    refine ⟨by rw [hga], ?_, ?_⟩
    · rw [hga]
      simp [getterRead, assocGet, hab]
    · rw [hga]
      simp [getterRead, assocGet, hab]

/-- The getter body used by the C8 witness. -/
def c8Body : Nat → Nat → JsVal := fun r i => JsVal.num (100 * r + i)

/-- Witness for C8 at concrete inputs: a frozen value on receiver 5 survives
interleaved reads and is returned unchanged, at most one body invocation per
receiver happens, and two fresh receivers 0 and 1 compute independently. -/
theorem memoizeDecorator_getter_once_witness :
    ((getterReads ⟨none, none, none⟩ c8Body ⟨[], []⟩ [6, 5, 6]).callLog.count 5 ≤ 1) ∧
    ((getterRead ⟨none, none, none⟩ c8Body
        (getterReads ⟨none, none, none⟩ c8Body ⟨[(5, JsVal.num 77)], [5]⟩ [6, 5, 6]) 5).1 =
      JsVal.num 77) ∧
    (getterRead ⟨none, none, none⟩ c8Body ⟨[], []⟩ 0).1 = JsVal.num 0 ∧
    (getterRead ⟨some 3, none, none⟩ c8Body
        (getterRead ⟨none, none, none⟩ c8Body ⟨[], []⟩ 0).2 1).1 = JsVal.num 101 := by
  have h := memoizeDecorator_getter_once ⟨none, none, none⟩ ⟨some 3, none, none⟩
    c8Body ⟨[(5, JsVal.num 77)], [5]⟩ [6, 5, 6] 5 0 1 (JsVal.num 77) rfl (by decide)
  exact ⟨h.1, h.2.1, h.2.2.1.1, h.2.2.1.2.1⟩

/-! ### C9: decorated methods keep one cache per receiver -/

/-- The returned value of a decorated-method invocation (`undefined` when the
invocation threw). -/
def mcValue : Except JsErr (JsVal × MethodState × Bool) → JsVal
  | Except.ok x => x.1
  | Except.error _ => JsVal.undef

/-- The state after a decorated-method invocation (unchanged empty state when
the invocation threw). -/
def mcState : Except JsErr (JsVal × MethodState × Bool) → MethodState
  | Except.ok x => x.2.1
  | Except.error _ => ⟨[], [], [], [], 0⟩

/-- Whether a decorated-method invocation ran the underlying body. -/
def mcInvoked : Except JsErr (JsVal × MethodState × Bool) → Bool
  | Except.ok x => x.2.2
  | Except.error _ => false

/-- The method body used by the C9 theorems: returns its receiver. -/
def c9Body : Nat → List JsVal → Nat → JsVal := fun r _ _ => JsVal.num r

/-- Options carrying a user-supplied shared storage (identity 0), for the C9
counterexample. -/
def c9SharedOpts : MemoOptions := ⟨none, none, some 0⟩

/-- Initial decorated-method state with the shared storage 0 present, for the
C9 counterexample. -/
def c9SharedSt0 : MethodState := ⟨[], [(0, [])], [], [], 1⟩

/-- State after receiver 1 called with argument 7 through the shared storage:
both the slot of receiver 1 and the shared storage entry are set. -/
def c9SharedSt1 : MethodState :=
  ⟨[(1, WrapperSlot.cached 0)], [(0, [(JsVal.num 7, ⟨JsVal.num 1, none⟩)])],
    [], [(1, [JsVal.num 7])], 1⟩

/-- State after receiver 2 then called with the same argument: it got its own
slot, but over the same shared storage, and hit receiver 1's entry. -/
def c9SharedSt2 : MethodState :=
  ⟨[(1, WrapperSlot.cached 0), (2, WrapperSlot.cached 0)],
    [(0, [(JsVal.num 7, ⟨JsVal.num 1, none⟩)])],
    [], [(1, [JsVal.num 7])], 1⟩

/-- C9 counterexample: when the decorator options carry a user-supplied
`cache`, every receiver's lazily built wrapper closes over that one shared
storage. Receiver 1 calls the method with argument 7 and stores its result;
receiver 2 then calls with the same argument and gets a cache hit — the value
computed for receiver 1 (its own body, which would return 2, is not invoked).
The claim that a call on one instance never produces a cache hit for a call
with the same argument on a different instance is false at this input. -/
theorem memoizeDecorator_shared_cache_cx :
    methodCall c9SharedOpts c9Body c9SharedSt0 0 1 [JsVal.num 7] =
      Except.ok (JsVal.num 1, c9SharedSt1, true) ∧
    methodCall c9SharedOpts c9Body c9SharedSt1 0 2 [JsVal.num 7] =
      Except.ok (JsVal.num 1, c9SharedSt2, false) ∧
    c9Body 2 [JsVal.num 7] 1 = JsVal.num 2 :=
  ⟨rfl, rfl, rfl⟩

/-- C9 amended: without a user-supplied shared storage (the default — each
per-receiver `memoize` call creates a fresh map), a decorated method keeps
one cache per receiver: the first invocation on a receiver builds a dedicated
wrapper remembered under that receiver (receiver `a` gets storage 0, receiver
`b` gets storage 1), a call on `b` with the same argument as an earlier call
on `a` still invokes the body (no cross-instance hit), and a repeat call on
`a` reuses its remembered wrapper and hits its own cache without invoking the
body. With a shared `cache` option, the storage — though not the wrapper — is
shared and cross-instance hits occur. -/
theorem memoizeDecorator_method_per_receiver (opts : MemoOptions)
    (m : Nat → List JsVal → Nat → JsVal) (now1 now2 now3 : Int)
    (a b : Nat) (args : List JsVal)
    (hca : opts.cacheArg = none)
    (hw : memoizeCheck opts.maxAge = MemoizeOutcome.wrapped)
    (hab : a ≠ b) :
    mcValue (methodCall opts m ⟨[], [], [], [], 0⟩ now1 a args) = m a args 0 ∧
    mcInvoked (methodCall opts m ⟨[], [], [], [], 0⟩ now1 a args) = true ∧
    assocGet (mcState (methodCall opts m ⟨[], [], [], [], 0⟩ now1 a args)).slots a =
      some (WrapperSlot.cached 0) ∧
    mcValue (methodCall opts m
      (mcState (methodCall opts m ⟨[], [], [], [], 0⟩ now1 a args)) now2 b args) =
      m b args 1 ∧
    mcInvoked (methodCall opts m
      (mcState (methodCall opts m ⟨[], [], [], [], 0⟩ now1 a args)) now2 b args) = true ∧
    assocGet (mcState (methodCall opts m
      (mcState (methodCall opts m ⟨[], [], [], [], 0⟩ now1 a args)) now2 b args)).slots a =
      some (WrapperSlot.cached 0) ∧
    assocGet (mcState (methodCall opts m
      (mcState (methodCall opts m ⟨[], [], [], [], 0⟩ now1 a args)) now2 b args)).slots b =
      some (WrapperSlot.cached 1) ∧
    mcValue (methodCall opts m (mcState (methodCall opts m
      (mcState (methodCall opts m ⟨[], [], [], [], 0⟩ now1 a args)) now2 b args)) now3 a args) =
      m a args 0 ∧
    mcInvoked (methodCall opts m (mcState (methodCall opts m
      (mcState (methodCall opts m ⟨[], [], [], [], 0⟩ now1 a args)) now2 b args)) now3 a args) =
      false := by
  refine ⟨?_, ?_, ?_, ?_, ?_, ?_, ?_, ?_, ?_⟩ <;>
    simp [methodCall, runMethodSlot, memoizedCall, mcValue, mcState, mcInvoked,
      hca, hw, hab, assocGet, assocSet, Ne.symm hab]

/-- Witness for the amended C9 at concrete inputs: receivers 1 and 2 each
invoke their own body on first call, and receiver 1's repeat call is a hit. -/
theorem memoizeDecorator_method_per_receiver_witness :
    mcValue (methodCall ⟨none, none, none⟩ c9Body ⟨[], [], [], [], 0⟩ 0 1 [JsVal.num 7]) =
      JsVal.num 1 ∧
    mcInvoked (methodCall ⟨none, none, none⟩ c9Body
      (mcState (methodCall ⟨none, none, none⟩ c9Body ⟨[], [], [], [], 0⟩ 0 1 [JsVal.num 7]))
      0 2 [JsVal.num 7]) = true ∧
    mcValue (methodCall ⟨none, none, none⟩ c9Body
      (mcState (methodCall ⟨none, none, none⟩ c9Body ⟨[], [], [], [], 0⟩ 0 1 [JsVal.num 7]))
      0 2 [JsVal.num 7]) = JsVal.num 2 ∧
    mcInvoked (methodCall ⟨none, none, none⟩ c9Body (mcState (methodCall ⟨none, none, none⟩
      c9Body (mcState (methodCall ⟨none, none, none⟩ c9Body ⟨[], [], [], [], 0⟩ 0 1
      [JsVal.num 7])) 0 2 [JsVal.num 7])) 0 1 [JsVal.num 7]) = false := by
  have h := memoizeDecorator_method_per_receiver ⟨none, none, none⟩ c9Body
    0 0 0 1 2 [JsVal.num 7] rfl rfl (by decide)
  exact ⟨h.1, h.2.2.2.2.1, h.2.2.2.1, h.2.2.2.2.2.2.2.2⟩
